import Mathlib

/-!
# A shallow embedding of the `@stimulcross/p-retry` retry engine

This file models the core of the library — `pRetry` (`src/p-retry.ts`),
`calculateDelay` and `createRetryContext` (`src/utils`), and the error
classification it performs — as executable Lean definitions, and proves
properties of the model.

Modelling conventions:
* JavaScript numbers that the claims exercise with `NaN` or `Infinity`
  (the `retries` option) are modelled by `JNum`; options that the claims
  exercise only with finite values or `+Infinity` (`maxTimeout`,
  `maxRetryTime`) are modelled by `ENum`; all other numbers are rationals.
* Thrown JavaScript values are modelled by `JSVal`, which records exactly
  the structure the engine inspects: whether the value is an `AbortError`
  instance, a `TypeError` instance, some other `Error`, or not an `Error`
  at all, together with the message (and, for abort errors, the `cause`).
* The asynchronous operation, the two user hooks, the wall clock
  (`Date.now()` as time elapsed since `startTime`) and the random source
  (`Math.random()`) are inputs of the model, collected in `Behavior`.
* The external `AbortSignal` is modelled by `SignalModel`: it is either
  already aborted when `pRetry` is entered, or it fires during the delay
  suspension that follows a given attempt (the only suspension the claims
  exercise).  An aborted `AbortSignal` always carries a `reason`, so the
  model stores it directly.
* The `while` loop is driven by explicit fuel; `RunResult.fuelOut` is a
  model artefact distinct from every real exit path of the code.
-/

namespace Retry

/-- A JavaScript value as the retry engine observes it when thrown:
an `AbortError` instance (the library's class, which extends `Error`),
a `TypeError` instance, any other `Error` (with its `name`), or a
non-`Error` value (kept as the string it interpolates to).  The engine
never reads the `cause` or `signal` properties of an error, so they are
not part of the model. -/
inductive JSVal where
  | abortError (message : String) : JSVal
  | typeError (message : String) : JSVal
  | genericError (name message : String) : JSVal
  | nonError (stringValue : String) : JSVal
deriving DecidableEq, Repr

/-- The `v instanceof Error` test — every constructor except `nonError`. -/
def JSVal.isError : JSVal → Bool
  | JSVal.nonError _ => false
  | _ => true

/-- The `v instanceof AbortError` test. -/
def JSVal.isAbortError : JSVal → Bool
  | JSVal.abortError _ => true
  | _ => false

/-- The `v instanceof TypeError` test.  The library's `AbortError` extends `Error`,
not `TypeError`, so it does not match here. -/
def JSVal.isTypeError : JSVal → Bool
  | JSVal.typeError _ => true
  | _ => false

/-- A JavaScript number restricted to the values the `retries` option can
take in the claims: finite, `+Infinity`, or `NaN`. -/
inductive JNum where
  | nan : JNum
  | inf : JNum
  | fin : ℚ → JNum
deriving DecidableEq, Repr

/-- JavaScript `x < j` for finite `x`: comparisons with `NaN` are false,
every finite number is below `+Infinity`. -/
def JNum.ltQr (x : ℚ) : JNum → Bool
  | JNum.nan => false
  | JNum.inf => true
  | JNum.fin y => decide (x < y)

/-- JavaScript `x >= j` for finite `x`: comparisons with `NaN` are false,
no finite number reaches `+Infinity`. -/
def JNum.geQr (x : ℚ) : JNum → Bool
  | JNum.nan => false
  | JNum.inf => false
  | JNum.fin y => decide (y ≤ x)

/-- JavaScript `j + y` for finite `y`: `NaN` and `+Infinity` absorb. -/
def JNum.addQ : JNum → ℚ → JNum
  | JNum.nan, _ => JNum.nan
  | JNum.inf, _ => JNum.inf
  | JNum.fin x, y => JNum.fin (x + y)

/-- JavaScript `j - y` for finite `y`: `NaN` and `+Infinity` absorb. -/
def JNum.subQ : JNum → ℚ → JNum
  | JNum.nan, _ => JNum.nan
  | JNum.inf, _ => JNum.inf
  | JNum.fin x, y => JNum.fin (x - y)

/-- JavaScript `j < 0`: false for `NaN` and `+Infinity`. -/
def JNum.isNegative : JNum → Bool
  | JNum.nan => false
  | JNum.inf => false
  | JNum.fin x => decide (x < 0)

/-- A JavaScript number restricted to finite or `+Infinity`, for the
`maxTimeout` and `maxRetryTime` options. -/
inductive ENum where
  | fin : ℚ → ENum
  | inf : ENum
deriving DecidableEq, Repr

/-- JavaScript `Math.min(x, m)` for finite `x`. -/
def ENum.minQ (x : ℚ) : ENum → ℚ
  | ENum.inf => x
  | ENum.fin m => min x m

/-- JavaScript `elapsed >= m` for finite `elapsed`
(the `currentTime - startTime >= maxRetryTime` test). -/
def elapsedExceeds (elapsed : ℚ) : ENum → Bool
  | ENum.inf => false
  | ENum.fin m => decide (m ≤ elapsed)

/-- JavaScript `Math.round` on finite values: round half towards `+∞`. -/
def jround (x : ℚ) : ℤ := ⌊x + 1/2⌋

/-- The options object after merging with defaults
(`p-retry.ts`, lines 36–47).  The two hook functions and the signal are
modelled separately (`Behavior`, `SignalModel`); `unref` is kept for
completeness but only affects whether a platform timer keeps the process
alive, which the model does not observe. -/
structure MergedOptions where
  retries : JNum
  factor : ℚ
  minTimeout : ℚ
  maxTimeout : ENum
  maxRetryTime : ENum
  randomize : Bool
  unref : Bool
deriving DecidableEq, Repr

/-- The caller-supplied options object: every numeric/boolean field is
optional (`undefined` = `none`). -/
structure Options where
  retries : Option JNum := none
  factor : Option ℚ := none
  minTimeout : Option ℚ := none
  maxTimeout : Option ENum := none
  maxRetryTime : Option ENum := none
  randomize : Option Bool := none
  unref : Option Bool := none
deriving DecidableEq, Repr

/-- The `??`-merge with defaults at the top of `pRetry`. -/
def mergeOptions (o : Options) : MergedOptions where
  retries := o.retries.getD (JNum.fin 10)
  factor := o.factor.getD 2
  minTimeout := o.minTimeout.getD 1000
  maxTimeout := o.maxTimeout.getD ENum.inf
  maxRetryTime := o.maxRetryTime.getD ENum.inf
  randomize := o.randomize.getD false
  unref := o.unref.getD false

/-- Modelled from the spec: the engine imports `isNetworkError` from
`./utils`, but that utility's source file is not part of the repository
snapshot.  Spec §4.2 describes it: a `TypeError` is network-class when its
message matches, case-insensitively, a fixed allow-list of substrings
commonly emitted by HTTP clients for connectivity failures. -/
def networkErrorMessages : List String :=
  ["network error", "failed to fetch", "load failed",
   "networkerror when attempting to fetch resource",
   "the internet connection appears to be offline",
   "network request failed", "fetch failed", "terminated"]

/-- Whether `needle` occurs as a substring of `hay` (both non-empty in our uses). -/
def containsSub (hay needle : String) : Bool :=
  (hay.splitOn needle).length != 1

/-- Modelled from the spec (§4.2): case-insensitive substring test of a
`TypeError` message against the network-error allow-list. -/
def isNetworkError (e : JSVal) : Bool :=
  match e with
  | JSVal.typeError m => networkErrorMessages.any (fun s => containsSub m.toLower s)
  | _ => false

/-- The wrapping `e instanceof Error ? e : new TypeError(...)` (`p-retry.ts`, line 72):
a non-`Error` thrown value is wrapped in a `TypeError` whose message
interpolates the value. -/
def wrapError (e : JSVal) : JSVal :=
  match e with
  | JSVal.nonError s =>
      JSVal.typeError ("Non-error was thrown: \"" ++ s ++ "\". You should only throw errors.")
  | _ => e

/-- The fatal-throw test of `p-retry.ts`, line 74:
`e instanceof AbortError || (e instanceof TypeError && !isNetworkError(error))`,
where `error` is the (possibly wrapped) `e`.  Note the `instanceof` checks
are applied to the original thrown value `e`, while `isNetworkError`
receives the wrapper. -/
def isFatalThrow (e : JSVal) : Bool :=
  e.isAbortError || (e.isTypeError && !(isNetworkError (wrapError e)))

/-- The frozen context passed to the user hooks
(`createRetryContext`, `src/utils`). -/
structure RetryContext where
  error : JSVal
  attemptNumber : ℕ
  retriesLeft : JNum
deriving DecidableEq, Repr

/-- Function `createRetryContext` from `src/utils`:
`retriesLeft = retries - (attemptNumber - 1)`. -/
def createRetryContext (error : JSVal) (attemptNumber : ℕ) (retries : JNum) :
    RetryContext where
  error := error
  attemptNumber := attemptNumber
  retriesLeft := retries.subQ ((attemptNumber : ℚ) - 1)

/-- Function `calculateDelay` from `src/utils`:
`random = randomize ? Math.random() + 1 : 1`;
`timeout = Math.round(random * Math.max(minTimeout, 1) * factor ** (attempt - 1))`;
`timeout = Math.min(timeout, maxTimeout)`.
The `Math.random()` sample (a value in `[0, 1)`) is the `rand` argument. -/
def calculateDelay (attempt : ℕ) (options : MergedOptions) (rand : ℚ) : ℚ :=
  let random : ℚ := if options.randomize then rand + 1 else 1
  let timeout : ℚ :=
    ((jround (random * max options.minTimeout 1 * options.factor ^ (attempt - 1)) : ℤ) : ℚ)
  ENum.minQ timeout options.maxTimeout

/-- The environment of one `pRetry` call: the operation (`input`), the two
user hooks, the wall clock and the random source.
* `op n` is what `await input(n)` does on attempt `n`: return a value or
  throw one.
* `onFailedAttempt c = some e` means the hook throws/rejects with `e`;
  `none` means it returns normally (the default hook `() => {}`).
* `shouldRetry c` either throws or resolves to a boolean (the default is
  `() => true`).
* `elapsed n` is `Date.now() - startTime` as sampled in the catch block of
  attempt `n`.
* `rand n` is the `Math.random()` sample consumed by `calculateDelay`
  after attempt `n` (relevant only when `randomize` is set). -/
structure Behavior (T : Type) where
  op : ℕ → Except JSVal T
  onFailedAttempt : RetryContext → Option JSVal
  shouldRetry : RetryContext → Except JSVal Bool
  elapsed : ℕ → ℚ
  rand : ℕ → ℚ

/-- The external `AbortSignal`, restricted to the event patterns the
claims exercise: it is either already aborted when `pRetry` is entered,
or it fires while the engine is suspended in the delay that follows a
given attempt.  An aborted signal always carries a `reason` (the platform
supplies a default one), so the model stores it directly; the
`?? new Error('Operation aborted by user')` fallback in the delay listener
is therefore unreachable and not modelled. -/
structure SignalModel where
  alreadyAborted : Bool
  reason : JSVal
  firesDuringDelayAfter : ℕ → Bool

/-- The `signal?.aborted` flag at the synchronous checkpoints. -/
def sigAborted : Option SignalModel → Bool
  | none => false
  | some s => s.alreadyAborted

/-- The `reason` of the signal (only read on paths where a signal is
present and aborted). -/
def sigReasonD : Option SignalModel → JSVal
  | none => JSVal.genericError "Error" ""
  | some s => s.reason

/-- Whether the signal fires while the engine sleeps in the delay that
follows attempt `n`. -/
def sigFires : Option SignalModel → ℕ → Bool
  | none, _ => false
  | some s, n => s.firesDuringDelayAfter n

/-- The try-block of one loop iteration (`p-retry.ts`, lines 65–70):
`signal?.throwIfAborted(); const result = await input(attemptNumber);
signal?.throwIfAborted(); return result;`.  The native
`AbortSignal.throwIfAborted` throws the signal's `reason`.  The boolean
records whether `input` was actually invoked. -/
def tryAttempt {T : Type} (b : Behavior T) (sig : Option SignalModel) (n : ℕ) :
    Except JSVal T × Bool :=
  if sigAborted sig then (Except.error (sigReasonD sig), false)
  else
    match b.op n with
    | Except.ok v =>
        if sigAborted sig then (Except.error (sigReasonD sig), true)
        else (Except.ok v, true)
    | Except.error e => (Except.error e, true)

deriving instance DecidableEq for Except

/-- Outcome of the delay's promise executor (`p-retry.ts`, lines 110–124):
`setTimeout(resolve, finalDelay)` races against the one-shot `abort`
listener, which calls `clearTimeout(timeoutToken)` and then rejects with
`signal?.reason ?? new Error('Operation aborted by user')`.
`timerCleared` records whether `clearTimeout` ran. -/
structure DelayRaceResult where
  timerCleared : Bool
  outcome : Except JSVal Unit
deriving DecidableEq, Repr

/-- The race between the pending timer and the abort listener: if the
signal fires during the delay, the timer is cleared and the promise
rejects with the signal's reason; otherwise the timer elapses and the
promise resolves. -/
def delayRace (abortFires : Bool) (reason : JSVal) : DelayRaceResult :=
  if abortFires then ⟨true, Except.error reason⟩ else ⟨false, Except.ok ()⟩

/-- How one `pRetry` call ends: fulfilled, rejected with a thrown value,
or (model artefact only) out of fuel. -/
inductive RunResult (T : Type) where
  | ok : T → RunResult T
  | err : JSVal → RunResult T
  | fuelOut : RunResult T
deriving DecidableEq, Repr

/-- Result of a run together with the number of times `input` was
invoked. -/
structure RunOutcome (T : Type) where
  result : RunResult T
  calls : ℕ
deriving DecidableEq, Repr

/-- The message of the unreachable-exit guard at the bottom of `pRetry`. -/
def exhaustedMessage : String := "Retry attempts exhausted without throwing an error."

/-- The `while (attemptNumber < mergedOptions.retries + 1)` loop of
`pRetry` (`p-retry.ts`, lines 60–129), driven by explicit fuel.
`attemptNumber` and `calls` are the loop counter and the number of
`input` invocations so far.  Falling out of the loop hits the final
`throw new Error('Retry attempts exhausted without throwing an error.')`. -/
def pRetryLoop {T : Type} (mo : MergedOptions) (b : Behavior T)
    (sig : Option SignalModel) : ℕ → ℕ → ℕ → RunOutcome T
  | 0, _, calls => ⟨RunResult.fuelOut, calls⟩
  | fuel + 1, attemptNumber, calls =>
    if JNum.ltQr (attemptNumber : ℚ) (mo.retries.addQ 1) then
      let n := attemptNumber + 1
      match tryAttempt b sig n with
      | (Except.ok v, _) => ⟨RunResult.ok v, calls + 1⟩
      | (Except.error e, invoked) =>
        let calls' := if invoked then calls + 1 else calls
        let error := wrapError e
        if isFatalThrow e then ⟨RunResult.err e, calls'⟩
        else
          let context := createRetryContext error n mo.retries
          match b.onFailedAttempt context with
          | some hookError => ⟨RunResult.err hookError, calls'⟩
          | none =>
            let elapsed := b.elapsed n
            if elapsedExceeds elapsed mo.maxRetryTime
                || JNum.geQr (n : ℚ) (mo.retries.addQ 1) then
              ⟨RunResult.err error, calls'⟩
            else
              match b.shouldRetry context with
              | Except.error e2 => ⟨RunResult.err e2, calls'⟩
              | Except.ok false => ⟨RunResult.err error, calls'⟩
              | Except.ok true =>
                let delayTime := calculateDelay n mo (b.rand n)
                let finalDelay : Except JSVal ℚ :=
                  match mo.maxRetryTime with
                  | ENum.inf => Except.ok delayTime
                  | ENum.fin mrt =>
                    let timeLeft := mrt - elapsed
                    if timeLeft ≤ 0 then Except.error error
                    else Except.ok (min delayTime timeLeft)
                match finalDelay with
                | Except.error e3 => ⟨RunResult.err e3, calls'⟩
                | Except.ok fd =>
                  if 0 < fd then
                    match (delayRace (sigFires sig n) (sigReasonD sig)).outcome with
                    | Except.error r => ⟨RunResult.err r, calls'⟩
                    | Except.ok _ =>
                      if sigAborted sig then ⟨RunResult.err (sigReasonD sig), calls'⟩
                      else pRetryLoop mo b sig fuel n calls'
                  else
                    if sigAborted sig then ⟨RunResult.err (sigReasonD sig), calls'⟩
                    else pRetryLoop mo b sig fuel n calls'
    else
      ⟨RunResult.err (JSVal.genericError "Error" exhaustedMessage), calls⟩

/-- Function `pRetry` (`src/p-retry.ts`): merge options, validate `retries`
(`typeof options.retries === 'number' && mergedOptions.retries < 0`
throws a `TypeError` before any attempt), run the pre-loop
`signal?.throwIfAborted()`, then enter the loop. -/
def pRetry {T : Type} (opts : Options) (b : Behavior T)
    (sig : Option SignalModel) (fuel : ℕ) : RunOutcome T :=
  let mo := mergeOptions opts
  if opts.retries.isSome && mo.retries.isNegative then
    ⟨RunResult.err (JSVal.typeError "Expected `retries` to be a non-negative number."), 0⟩
  else if sigAborted sig then
    ⟨RunResult.err (sigReasonD sig), 0⟩
  else
    pRetryLoop mo b sig fuel 0 0

/-- Function `makeRetriable` (`src/make-retriable.ts`): wrap `fn` so each call
delegates to `pRetry` with the captured arguments.  Arguments are
modelled by the `args` value baked into the wrapped operation. -/
def makeRetriable {A T : Type} (fn : A → ℕ → Except JSVal T) (opts : Options)
    (sig : Option SignalModel)
    (onFailedAttempt : RetryContext → Option JSVal)
    (shouldRetry : RetryContext → Except JSVal Bool)
    (elapsed : ℕ → ℚ) (rand : ℕ → ℚ) (fuel : ℕ) : A → RunOutcome T :=
  fun args =>
    pRetry opts ⟨fn args, onFailedAttempt, shouldRetry, elapsed, rand⟩ sig fuel

/-- The retry context built for a failure of attempt `n` when the thrown
values are described by `errs`. -/
def attemptCtx (retries : JNum) (errs : ℕ → JSVal) (n : ℕ) : RetryContext :=
  createRetryContext (wrapError (errs n)) n retries

/-- Conditions under which the failure of attempt `n` lets the loop move
on to attempt `n + 1` (the hypotheses of `pRetryLoop_step`, packaged by
attempt number). -/
def continuesAt {T : Type} (mo : MergedOptions) (b : Behavior T)
    (errs : ℕ → JSVal) (n : ℕ) : Prop :=
  b.op n = Except.error (errs n)
  ∧ isFatalThrow (errs n) = false
  ∧ b.onFailedAttempt (attemptCtx mo.retries errs n) = none
  ∧ elapsedExceeds (b.elapsed n) mo.maxRetryTime = false
  ∧ JNum.ltQr ((n : ℚ) - 1) (mo.retries.addQ 1) = true
  ∧ JNum.geQr ((n : ℕ) : ℚ) (mo.retries.addQ 1) = false
  ∧ b.shouldRetry (attemptCtx mo.retries errs n) = Except.ok true

/-- The merged options produced by a call that passes only `retries`:
all other fields take their documented defaults. -/
def onlyRetries (r : JNum) : MergedOptions :=
  ⟨r, 2, 1000, ENum.inf, ENum.inf, false, false⟩

/-- Witness for C1 at `N = 1`: a constantly failing operation is invoked
exactly twice and the run rejects with its error. -/
def errsBoom : ℕ → JSVal := fun _ => JSVal.genericError "Error" "boom"

/-- A behaviour whose operation always throws `Error('boom')` and whose
hooks are the defaults. -/
def behaviorBoom : Behavior Unit :=
  ⟨fun n => Except.error (errsBoom n), fun _ => none, fun _ => Except.ok true,
    fun _ => 0, fun _ => 0⟩

/-- Witness for C2 at `k = 2`, `N = 5`: after one retriable failure, an
`AbortError` on the second attempt rejects the run unchanged after
exactly two invocations. -/
def behaviorAbortOn2 : Behavior Unit :=
  ⟨fun n => Except.error (if n = 2 then JSVal.abortError "stop now" else errsBoom n),
    fun _ => none, fun _ => Except.ok true, fun _ => 0, fun _ => 0⟩

/-- The merged options produced by a call that passes `retries` and
`maxRetryTime`. -/
def retriesAndTime (r : JNum) (M : ENum) : MergedOptions :=
  ⟨r, 2, 1000, ENum.inf, M, false, false⟩

/-- Witness for C5 at `k = 1`, `N = 0`, `maxRetryTime = 0`: even though
both budgets are already exhausted at the first failure, the throwing
hook's error is what the run rejects with, after one invocation. -/
def behaviorHookThrows : Behavior Unit :=
  ⟨fun n => Except.error (errsBoom n),
    fun _ => some (JSVal.genericError "Error" "hook failed"),
    fun _ => Except.ok true, fun _ => 0, fun _ => 0⟩

/-- Witness for C7 at `k = 1`, `N = 5`: `shouldRetry` answering `false`
to the first failure stops the run at one invocation even though five
retries remain. -/
def behaviorVetoed : Behavior Unit :=
  ⟨fun n => Except.error (errsBoom n), fun _ => none,
    fun _ => Except.ok false, fun _ => 0, fun _ => 0⟩

/-- The merged options of the degenerate-factor runs: `factor = 0`, all
other fields default. -/
def factorZeroOptions : MergedOptions := mergeOptions { factor := some 0 }

/-- The external signal of the C6 run: not aborted at entry, firing
during the delay that follows attempt 1, with reason
`Error('Database unavailable')`. -/
def abortMidDelaySignal : SignalModel :=
  ⟨false, JSVal.genericError "Error" "Database unavailable", fun n => n == 1⟩

/-- The C9 witness behaviour: the operation throws the bare string
`'foo'` and the hook throws on seeing the wrapped context. -/
def behaviorNonError : Behavior Unit :=
  ⟨fun _ => Except.error (JSVal.nonError "foo"),
    fun _ => some (JSVal.genericError "Error" "hook saw it"),
    fun _ => Except.ok true, fun _ => 0, fun _ => 0⟩

lemma tryAttempt_error {T : Type} (b : Behavior T) (n : ℕ) (e : JSVal)
    (hop : b.op n = Except.error e) :
    tryAttempt b none n = (Except.error e, true) := by
  simp [tryAttempt, sigAborted, hop]

/-- One loop iteration in which attempt `a + 1` fails retriably, the hook
returns normally, neither budget stops the loop, and `shouldRetry`
resolves `true`: the loop moves on to the next attempt. -/
lemma pRetryLoop_step {T : Type} (mo : MergedOptions) (b : Behavior T)
    (a c fuel : ℕ) (e : JSVal)
    (hguard : JNum.ltQr (a : ℚ) (mo.retries.addQ 1) = true)
    (hop : b.op (a + 1) = Except.error e)
    (hfatal : isFatalThrow e = false)
    (hhook : b.onFailedAttempt (createRetryContext (wrapError e) (a + 1) mo.retries) = none)
    (htime : elapsedExceeds (b.elapsed (a + 1)) mo.maxRetryTime = false)
    (hbudget : JNum.geQr ((a + 1 : ℕ) : ℚ) (mo.retries.addQ 1) = false)
    (hsr : b.shouldRetry (createRetryContext (wrapError e) (a + 1) mo.retries)
      = Except.ok true) :
    pRetryLoop mo b none (fuel + 1) a c = pRetryLoop mo b none fuel (a + 1) (c + 1) := by
  have htry := tryAttempt_error b (a + 1) e hop
  cases hM : mo.maxRetryTime with
  | inf =>
      simp only [pRetryLoop, hguard, if_true, htry, hfatal, Bool.false_eq_true, if_false,
        hhook, hM, htime, hbudget, Bool.or_self, hsr, delayRace, sigFires, sigAborted,
        ite_self, elapsedExceeds, Bool.false_or, Bool.or_false]
  | fin mrt =>
      rw [hM] at htime
      simp only [elapsedExceeds, decide_eq_false_iff_not, not_le] at htime
      have hpos : ¬ (mrt - b.elapsed (a + 1) ≤ 0) := by
        rw [sub_nonpos]; exact not_le.mpr htime
      simp only [pRetryLoop, hguard, if_true, htry, hfatal, Bool.false_eq_true, if_false,
        hhook, hM, elapsedExceeds, decide_eq_true_eq, hbudget, Bool.or_false,
        not_le.mpr htime, hsr, hpos, delayRace, sigFires, sigAborted, ite_self,
        decide_eq_false (not_le.mpr htime), Bool.false_or, if_false]

/-- One loop iteration in which attempt `a + 1` throws a classifier-fatal
value: it is rethrown unchanged, with no hook consulted. -/
lemma pRetryLoop_fatal {T : Type} (mo : MergedOptions) (b : Behavior T)
    (a c fuel : ℕ) (e : JSVal)
    (hguard : JNum.ltQr (a : ℚ) (mo.retries.addQ 1) = true)
    (hop : b.op (a + 1) = Except.error e)
    (hfatal : isFatalThrow e = true) :
    pRetryLoop mo b none (fuel + 1) a c = ⟨RunResult.err e, c + 1⟩ := by
  have htry := tryAttempt_error b (a + 1) e hop
  simp only [pRetryLoop, hguard, if_true, htry, hfatal]

/-- One loop iteration in which attempt `a + 1` fails retriably and
`onFailedAttempt` throws: the hook's error is rethrown. -/
lemma pRetryLoop_hookThrows {T : Type} (mo : MergedOptions) (b : Behavior T)
    (a c fuel : ℕ) (e hookErr : JSVal)
    (hguard : JNum.ltQr (a : ℚ) (mo.retries.addQ 1) = true)
    (hop : b.op (a + 1) = Except.error e)
    (hfatal : isFatalThrow e = false)
    (hhook : b.onFailedAttempt (createRetryContext (wrapError e) (a + 1) mo.retries)
      = some hookErr) :
    pRetryLoop mo b none (fuel + 1) a c = ⟨RunResult.err hookErr, c + 1⟩ := by
  have htry := tryAttempt_error b (a + 1) e hop
  simp only [pRetryLoop, hguard, if_true, htry, hfatal, Bool.false_eq_true, if_false, hhook]

/-- One loop iteration in which attempt `a + 1` fails retriably, the hook
returns normally, and the time- or retry-budget check stops the loop: the
classified error is rethrown. -/
lemma pRetryLoop_budgetStop {T : Type} (mo : MergedOptions) (b : Behavior T)
    (a c fuel : ℕ) (e : JSVal)
    (hguard : JNum.ltQr (a : ℚ) (mo.retries.addQ 1) = true)
    (hop : b.op (a + 1) = Except.error e)
    (hfatal : isFatalThrow e = false)
    (hhook : b.onFailedAttempt (createRetryContext (wrapError e) (a + 1) mo.retries) = none)
    (hstop : (elapsedExceeds (b.elapsed (a + 1)) mo.maxRetryTime
        || JNum.geQr ((a + 1 : ℕ) : ℚ) (mo.retries.addQ 1)) = true) :
    pRetryLoop mo b none (fuel + 1) a c = ⟨RunResult.err (wrapError e), c + 1⟩ := by
  have htry := tryAttempt_error b (a + 1) e hop
  simp only [pRetryLoop, hguard, if_true, htry, hfatal, Bool.false_eq_true, if_false,
    hhook, hstop]

/-- One loop iteration in which attempt `a + 1` fails retriably, the hook
returns normally, the budgets allow continuing, but `shouldRetry` resolves
`false`: the classified error is rethrown. -/
lemma pRetryLoop_shouldRetryFalse {T : Type} (mo : MergedOptions) (b : Behavior T)
    (a c fuel : ℕ) (e : JSVal)
    (hguard : JNum.ltQr (a : ℚ) (mo.retries.addQ 1) = true)
    (hop : b.op (a + 1) = Except.error e)
    (hfatal : isFatalThrow e = false)
    (hhook : b.onFailedAttempt (createRetryContext (wrapError e) (a + 1) mo.retries) = none)
    (htime : elapsedExceeds (b.elapsed (a + 1)) mo.maxRetryTime = false)
    (hbudget : JNum.geQr ((a + 1 : ℕ) : ℚ) (mo.retries.addQ 1) = false)
    (hsr : b.shouldRetry (createRetryContext (wrapError e) (a + 1) mo.retries)
      = Except.ok false) :
    pRetryLoop mo b none (fuel + 1) a c = ⟨RunResult.err (wrapError e), c + 1⟩ := by
  have htry := tryAttempt_error b (a + 1) e hop
  simp only [pRetryLoop, hguard, if_true, htry, hfatal, Bool.false_eq_true, if_false,
    hhook, htime, hbudget, Bool.or_self, hsr]

/-- Skipping `j` consecutive continuing attempts: the loop state advances
from `(a, c)` to `(a + j, c + j)` while consuming `j` units of fuel. -/
lemma pRetryLoop_skip {T : Type} (mo : MergedOptions) (b : Behavior T)
    (errs : ℕ → JSVal) (j : ℕ) :
    ∀ (a c fuel : ℕ),
    (∀ n, a < n → n ≤ a + j → continuesAt mo b errs n) →
    pRetryLoop mo b none (j + fuel) a c = pRetryLoop mo b none fuel (a + j) (c + j) := by
  induction j with
  | zero => intro a c fuel _; simp
  | succ j ih =>
      intro a c fuel h
      have hn := h (a + 1) (by omega) (by omega)
      obtain ⟨hop, hfatal, hhook, htime, hguard, hbudget, hsr⟩ := hn
      have hguard' : JNum.ltQr ((a : ℕ) : ℚ) (mo.retries.addQ 1) = true := by
        have : ((a + 1 : ℕ) : ℚ) - 1 = (a : ℚ) := by push_cast; ring
        rwa [this] at hguard
      have hstep := pRetryLoop_step mo b a c (j + fuel) (errs (a + 1)) hguard' hop hfatal
        hhook htime hbudget hsr
      have heq : j + 1 + fuel = (j + fuel) + 1 := by omega
      rw [heq, hstep, ih (a + 1) (c + 1) fuel (fun n h1 h2 => h n (by omega) (by omega))]
      congr 1 <;> omega

/-- Entering the loop: when the `retries` validation passes and no signal
is present, `pRetry` is the loop started at `attemptNumber = 0`. -/
lemma pRetry_run {T : Type} (opts : Options) (b : Behavior T)
    (sig : Option SignalModel) (fuel : ℕ)
    (hval : (opts.retries.isSome && (mergeOptions opts).retries.isNegative) = false)
    (hsig : sigAborted sig = false) :
    pRetry opts b sig fuel = pRetryLoop (mergeOptions opts) b sig fuel 0 0 := by
  simp only [pRetry, hval, Bool.false_eq_true, if_false, hsig]

lemma mergeOptions_onlyRetries (r : JNum) :
    mergeOptions { retries := some r } = onlyRetries r := rfl

/-- For attempts `n ≤ N` under options with `retries = N`, a failure
satisfying the behavioural hypotheses lets the loop continue. -/
lemma continuesAt_finRetries {T : Type} (mo : MergedOptions) (N : ℕ)
    (hr : mo.retries = JNum.fin (N : ℚ)) (b : Behavior T) (errs : ℕ → JSVal)
    (n : ℕ) (h2 : n ≤ N)
    (hop : b.op n = Except.error (errs n))
    (hretriable : isFatalThrow (errs n) = false)
    (hhook : b.onFailedAttempt (attemptCtx mo.retries errs n) = none)
    (htime : elapsedExceeds (b.elapsed n) mo.maxRetryTime = false)
    (hsr : b.shouldRetry (attemptCtx mo.retries errs n) = Except.ok true) :
    continuesAt mo b errs n := by
  have hn : (n : ℚ) ≤ (N : ℚ) := by exact_mod_cast h2
  refine ⟨hop, hretriable, hhook, htime, ?_, ?_, hsr⟩
  · simp only [hr, JNum.addQ, JNum.ltQr, decide_eq_true_eq]
    linarith
  · simp only [hr, JNum.addQ, JNum.geQr, decide_eq_false_iff_not, not_le]
    linarith

/-- C1: with `retries = N` and an operation that fails with a retriable
error on every attempt (hooks at their defaults), `pRetry` invokes the
operation exactly `N + 1` times and rejects with the (classified) error
of the last attempt.  The fuel `N + 1 + f` is any amount sufficient for
the `N + 1` loop iterations. -/
theorem pRetry_always_failing_runs_retries_plus_one {T : Type} (N f : ℕ)
    (b : Behavior T) (errs : ℕ → JSVal)
    (hop : ∀ n, b.op n = Except.error (errs n))
    (hretriable : ∀ n, isFatalThrow (errs n) = false)
    (hhook : ∀ c, b.onFailedAttempt c = none)
    (hsr : ∀ c, b.shouldRetry c = Except.ok true) :
    pRetry { retries := some (JNum.fin (N : ℚ)) } b none (N + 1 + f)
      = ⟨RunResult.err (wrapError (errs (N + 1))), N + 1⟩ := by
  rw [pRetry_run _ _ none _ (by simp [mergeOptions, JNum.isNegative]) rfl,
    mergeOptions_onlyRetries]
  have hskip := pRetryLoop_skip (onlyRetries (JNum.fin (N : ℚ))) b errs N 0 0 (1 + f)
    (fun n hn1 hn2 => continuesAt_finRetries _ N rfl b errs n (by omega)
      (hop n) (hretriable n) (hhook _) rfl (hsr _))
  rw [show N + 1 + f = N + (1 + f) from by omega, hskip]
  have hguardN : JNum.ltQr ((N : ℕ) : ℚ) ((JNum.fin (N : ℚ)).addQ 1) = true := by
    simp only [JNum.addQ, JNum.ltQr, decide_eq_true_eq]
    linarith
  have hstopN : (elapsedExceeds (b.elapsed (N + 1)) (onlyRetries (JNum.fin (N : ℚ))).maxRetryTime
      || JNum.geQr ((N + 1 : ℕ) : ℚ) ((JNum.fin (N : ℚ)).addQ 1)) = true := by
    simp only [onlyRetries, elapsedExceeds, JNum.addQ, JNum.geQr, Bool.false_or,
      decide_eq_true_eq]
    push_cast
    linarith
  rw [show 1 + f = f + 1 from by omega, show (0 + N : ℕ) = N from by omega]
  exact pRetryLoop_budgetStop _ b N N f (errs (N + 1)) hguardN (hop (N + 1))
    (hretriable (N + 1)) (hhook _) hstopN

theorem pRetry_always_failing_runs_retries_plus_one_witness :
    pRetry { retries := some (JNum.fin ((1 : ℕ) : ℚ)) } behaviorBoom none 2
      = ⟨RunResult.err (JSVal.genericError "Error" "boom"), 2⟩ :=
  pRetry_always_failing_runs_retries_plus_one 1 0 behaviorBoom errsBoom
    (fun _ => rfl) (fun _ => rfl) (fun _ => rfl) (fun _ => rfl)

/-- C2: a classifier-fatal throw — an `AbortError`, or a `TypeError` whose
message is not recognized as a network error — on attempt `k` propagates
to the caller unchanged and immediately.  The behaviour's hooks are
constrained only for the attempts before `k` and the conclusion holds for
every such behaviour, so neither `onFailedAttempt` nor `shouldRetry` is
consulted for the fatal failure, and the loop stops at exactly `k`
invocations of the operation. -/
theorem pRetry_fatal_error_short_circuits {T : Type} (N k f : ℕ)
    (b : Behavior T) (errs : ℕ → JSVal) (e : JSVal)
    (hk1 : 1 ≤ k) (hkN : k ≤ N + 1)
    (hop : ∀ n, 1 ≤ n → n < k → b.op n = Except.error (errs n))
    (hretriable : ∀ n, 1 ≤ n → n < k → isFatalThrow (errs n) = false)
    (hhook : ∀ n, 1 ≤ n → n < k →
      b.onFailedAttempt (attemptCtx (JNum.fin (N : ℚ)) errs n) = none)
    (hsr : ∀ n, 1 ≤ n → n < k →
      b.shouldRetry (attemptCtx (JNum.fin (N : ℚ)) errs n) = Except.ok true)
    (hopk : b.op k = Except.error e)
    (hfatal : e.isAbortError = true
      ∨ (e.isTypeError = true ∧ isNetworkError (wrapError e) = false)) :
    pRetry { retries := some (JNum.fin (N : ℚ)) } b none (k + f)
      = ⟨RunResult.err e, k⟩ := by
  have hfatal' : isFatalThrow e = true := by
    rcases hfatal with h | ⟨h1, h2⟩
    · simp [isFatalThrow, h]
    · simp [isFatalThrow, h1, h2]
  rw [pRetry_run _ _ none _ (by simp [mergeOptions, JNum.isNegative]) rfl,
    mergeOptions_onlyRetries]
  have hskip := pRetryLoop_skip (onlyRetries (JNum.fin (N : ℚ))) b errs (k - 1) 0 0 (1 + f)
    (fun n hn1 hn2 => continuesAt_finRetries _ N rfl b errs n (by omega)
      (hop n (by omega) (by omega)) (hretriable n (by omega) (by omega))
      (hhook n (by omega) (by omega)) rfl (hsr n (by omega) (by omega)))
  rw [show k + f = (k - 1) + (1 + f) from by omega, hskip,
    show 1 + f = f + 1 from by omega]
  have hguard : JNum.ltQr (((k - 1 : ℕ)) : ℚ) ((JNum.fin (N : ℚ)).addQ 1) = true := by
    have : ((k - 1 : ℕ) : ℚ) ≤ (N : ℚ) := by exact_mod_cast (by omega : k - 1 ≤ N)
    simp only [JNum.addQ, JNum.ltQr, decide_eq_true_eq]
    linarith
  have hopk' : b.op ((k - 1) + 1) = Except.error e := by
    rw [show (k - 1) + 1 = k from by omega]; exact hopk
  rw [show (0 + (k - 1) : ℕ) = k - 1 from by omega,
    pRetryLoop_fatal _ b (k - 1) (k - 1) f e hguard hopk' hfatal',
    show (k - 1) + 1 = k from by omega]

theorem pRetry_fatal_error_short_circuits_witness :
    pRetry { retries := some (JNum.fin ((5 : ℕ) : ℚ)) } behaviorAbortOn2 none 2
      = ⟨RunResult.err (JSVal.abortError "stop now"), 2⟩ :=
  pRetry_fatal_error_short_circuits 5 2 0 behaviorAbortOn2
    (fun n => if n = 2 then JSVal.abortError "stop now" else errsBoom n)
    (JSVal.abortError "stop now")
    (by omega) (by omega)
    (fun n h1 h2 => rfl)
    (fun n h1 h2 => by interval_cases n; rfl)
    (fun n h1 h2 => rfl)
    (fun n h1 h2 => rfl)
    rfl
    (Or.inl rfl)

lemma mergeOptions_retriesAndTime (r : JNum) (M : ENum) :
    mergeOptions { retries := some r, maxRetryTime := some M } = retriesAndTime r M := rfl

/-- C5: for a retriable failure on attempt `k`, `onFailedAttempt` runs
before the continue/stop decision: the attempt `k` hypotheses leave the
time budget (`elapsed k` is unconstrained, even past `maxRetryTime`), the
retry budget (`k = N + 1` is allowed) and `shouldRetry` unconstrained,
yet a throwing hook makes the run reject with the hook's error — in
place of the operation's error — after exactly `k` invocations. -/
theorem pRetry_onFailedAttempt_runs_before_stop_decision {T : Type} (N k f : ℕ)
    (M : ENum) (b : Behavior T) (errs : ℕ → JSVal) (hookErr : JSVal)
    (hk1 : 1 ≤ k) (hkN : k ≤ N + 1)
    (hop : ∀ n, 1 ≤ n → n ≤ k → b.op n = Except.error (errs n))
    (hretriable : ∀ n, 1 ≤ n → n ≤ k → isFatalThrow (errs n) = false)
    (hhook : ∀ n, 1 ≤ n → n < k →
      b.onFailedAttempt (attemptCtx (JNum.fin (N : ℚ)) errs n) = none)
    (htime : ∀ n, 1 ≤ n → n < k → elapsedExceeds (b.elapsed n) M = false)
    (hsr : ∀ n, 1 ≤ n → n < k →
      b.shouldRetry (attemptCtx (JNum.fin (N : ℚ)) errs n) = Except.ok true)
    (hhookk : b.onFailedAttempt (attemptCtx (JNum.fin (N : ℚ)) errs k) = some hookErr) :
    pRetry { retries := some (JNum.fin (N : ℚ)), maxRetryTime := some M } b none (k + f)
      = ⟨RunResult.err hookErr, k⟩ := by
  rw [pRetry_run _ _ none _ (by simp [mergeOptions, JNum.isNegative]) rfl,
    mergeOptions_retriesAndTime]
  have hskip := pRetryLoop_skip (retriesAndTime (JNum.fin (N : ℚ)) M) b errs (k - 1) 0 0 (1 + f)
    (fun n hn1 hn2 => continuesAt_finRetries _ N rfl b errs n (by omega)
      (hop n (by omega) (by omega)) (hretriable n (by omega) (by omega))
      (hhook n (by omega) (by omega)) (htime n (by omega) (by omega))
      (hsr n (by omega) (by omega)))
  rw [show k + f = (k - 1) + (1 + f) from by omega, hskip,
    show 1 + f = f + 1 from by omega]
  have hguard : JNum.ltQr (((k - 1 : ℕ)) : ℚ) ((JNum.fin (N : ℚ)).addQ 1) = true := by
    have : ((k - 1 : ℕ) : ℚ) ≤ (N : ℚ) := by exact_mod_cast (by omega : k - 1 ≤ N)
    simp only [JNum.addQ, JNum.ltQr, decide_eq_true_eq]
    linarith
  have hopk' : b.op ((k - 1) + 1) = Except.error (errs k) := by
    rw [show (k - 1) + 1 = k from by omega]; exact hop k hk1 (le_refl k)
  have hfatalk : isFatalThrow (errs k) = false := hretriable k hk1 (le_refl k)
  have hhookk' : b.onFailedAttempt
      (createRetryContext (wrapError (errs k)) ((k - 1) + 1)
        (retriesAndTime (JNum.fin (N : ℚ)) M).retries) = some hookErr := by
    rw [show (k - 1) + 1 = k from by omega]; exact hhookk
  rw [show (0 + (k - 1) : ℕ) = k - 1 from by omega]
  have := pRetryLoop_hookThrows (retriesAndTime (JNum.fin (N : ℚ)) M) b (k - 1) (k - 1) f
    (errs k) hookErr hguard hopk' hfatalk hhookk'
  rw [show (k - 1) + 1 = k from by omega] at this
  exact this

theorem pRetry_onFailedAttempt_runs_before_stop_decision_witness :
    pRetry { retries := some (JNum.fin ((0 : ℕ) : ℚ)), maxRetryTime := some (ENum.fin 0) }
      behaviorHookThrows none 1
      = ⟨RunResult.err (JSVal.genericError "Error" "hook failed"), 1⟩ :=
  pRetry_onFailedAttempt_runs_before_stop_decision 0 1 0 (ENum.fin 0)
    behaviorHookThrows errsBoom (JSVal.genericError "Error" "hook failed")
    (by omega) (by omega)
    (fun _ _ _ => rfl) (fun _ _ _ => rfl)
    (fun n h1 h2 => absurd h2 (by omega))
    (fun n h1 h2 => absurd h2 (by omega))
    (fun n h1 h2 => absurd h2 (by omega))
    rfl

/-- C7: when a retriable failure on attempt `k` (with retries still left
in the budget) makes `shouldRetry` resolve `false`, the run stops with no
further attempts and rejects with that failure's classified error, after
exactly `k` invocations. -/
theorem pRetry_shouldRetry_false_stops {T : Type} (N k f : ℕ)
    (b : Behavior T) (errs : ℕ → JSVal)
    (hk1 : 1 ≤ k) (hkN : k ≤ N)
    (hop : ∀ n, 1 ≤ n → n ≤ k → b.op n = Except.error (errs n))
    (hretriable : ∀ n, 1 ≤ n → n ≤ k → isFatalThrow (errs n) = false)
    (hhook : ∀ n, 1 ≤ n → n ≤ k →
      b.onFailedAttempt (attemptCtx (JNum.fin (N : ℚ)) errs n) = none)
    (hsr : ∀ n, 1 ≤ n → n < k →
      b.shouldRetry (attemptCtx (JNum.fin (N : ℚ)) errs n) = Except.ok true)
    (hsrk : b.shouldRetry (attemptCtx (JNum.fin (N : ℚ)) errs k) = Except.ok false) :
    pRetry { retries := some (JNum.fin (N : ℚ)) } b none (k + f)
      = ⟨RunResult.err (wrapError (errs k)), k⟩ := by
  rw [pRetry_run _ _ none _ (by simp [mergeOptions, JNum.isNegative]) rfl,
    mergeOptions_onlyRetries]
  have hskip := pRetryLoop_skip (onlyRetries (JNum.fin (N : ℚ))) b errs (k - 1) 0 0 (1 + f)
    (fun n hn1 hn2 => continuesAt_finRetries _ N rfl b errs n (by omega)
      (hop n (by omega) (by omega)) (hretriable n (by omega) (by omega))
      (hhook n (by omega) (by omega)) rfl (hsr n (by omega) (by omega)))
  rw [show k + f = (k - 1) + (1 + f) from by omega, hskip,
    show 1 + f = f + 1 from by omega]
  have hkQ : (k : ℚ) ≤ (N : ℚ) := by exact_mod_cast hkN
  have hguard : JNum.ltQr (((k - 1 : ℕ)) : ℚ) ((JNum.fin (N : ℚ)).addQ 1) = true := by
    have : ((k - 1 : ℕ) : ℚ) ≤ (N : ℚ) := by exact_mod_cast (by omega : k - 1 ≤ N)
    simp only [JNum.addQ, JNum.ltQr, decide_eq_true_eq]
    linarith
  have hopk' : b.op ((k - 1) + 1) = Except.error (errs k) := by
    rw [show (k - 1) + 1 = k from by omega]; exact hop k hk1 (le_refl k)
  have hfatalk : isFatalThrow (errs k) = false := hretriable k hk1 (le_refl k)
  have hhookk' : b.onFailedAttempt
      (createRetryContext (wrapError (errs k)) ((k - 1) + 1)
        (onlyRetries (JNum.fin (N : ℚ))).retries) = none := by
    rw [show (k - 1) + 1 = k from by omega]; exact hhook k hk1 (le_refl k)
  have hbudget : JNum.geQr (((k - 1 : ℕ) + 1 : ℕ) : ℚ)
      ((onlyRetries (JNum.fin (N : ℚ))).retries.addQ 1) = false := by
    have : (((k - 1 : ℕ) + 1 : ℕ) : ℚ) ≤ (N : ℚ) := by
      exact_mod_cast (by omega : (k - 1) + 1 ≤ N)
    simp only [onlyRetries, JNum.addQ, JNum.geQr, decide_eq_false_iff_not, not_le]
    linarith
  have hsrk' : b.shouldRetry
      (createRetryContext (wrapError (errs k)) ((k - 1) + 1)
        (onlyRetries (JNum.fin (N : ℚ))).retries) = Except.ok false := by
    rw [show (k - 1) + 1 = k from by omega]; exact hsrk
  rw [show (0 + (k - 1) : ℕ) = k - 1 from by omega]
  have := pRetryLoop_shouldRetryFalse (onlyRetries (JNum.fin (N : ℚ))) b (k - 1) (k - 1) f
    (errs k) hguard hopk' hfatalk hhookk' rfl hbudget hsrk'
  rw [show (k - 1) + 1 = k from by omega] at this
  exact this

theorem pRetry_shouldRetry_false_stops_witness :
    pRetry { retries := some (JNum.fin ((5 : ℕ) : ℚ)) } behaviorVetoed none 1
      = ⟨RunResult.err (JSVal.genericError "Error" "boom"), 1⟩ :=
  pRetry_shouldRetry_false_stops 5 1 0 behaviorVetoed errsBoom
    (by omega) (by omega)
    (fun _ _ _ => rfl) (fun _ _ _ => rfl) (fun _ _ _ => rfl)
    (fun n h1 h2 => absurd h2 (by omega))
    rfl

/-- C3: with `randomize = false`, the delay computed after attempt `i`
(i.e. before attempt `i + 1`) equals
`min(round(max(minTimeout, 1) * factor^(i-1)), maxTimeout)` exactly, and
it does not depend on the random sample, so the same inputs always yield
the same delay. -/
theorem calculateDelay_deterministic_formula (i : ℕ) (_hi : 1 ≤ i)
    (mo : MergedOptions) (r r' : ℚ) (hrand : mo.randomize = false) :
    calculateDelay i mo r
        = ENum.minQ ((jround (max mo.minTimeout 1 * mo.factor ^ (i - 1)) : ℤ) : ℚ)
            mo.maxTimeout
    ∧ calculateDelay i mo r = calculateDelay i mo r' := by
  constructor <;> simp [calculateDelay, hrand]

/-- Witness for C3 at `i = 1` under the default options: the delay is
independent of the random samples `3` and `5` and matches the closed
formula. -/
theorem calculateDelay_deterministic_formula_witness :
    calculateDelay 1 (mergeOptions {}) 3
        = ENum.minQ ((jround (max (mergeOptions {}).minTimeout 1
            * (mergeOptions {}).factor ^ (1 - 1)) : ℤ) : ℚ) (mergeOptions {}).maxTimeout
    ∧ calculateDelay 1 (mergeOptions {}) 3 = calculateDelay 1 (mergeOptions {}) 5 :=
  calculateDelay_deterministic_formula 1 (by omega) (mergeOptions {}) 3 5 rfl

/-- C4 counterexample: with `factor = 0` and the default
`minTimeout = 1000`, the delay computed for attempt 2 is `0`, strictly
below `minTimeout` — refuting the claim that a degenerate factor keeps
`minTimeout` as a floor for every attempt. -/
theorem calculateDelay_factor_zero_counterexample :
    calculateDelay 2 factorZeroOptions 0 = 0
    ∧ calculateDelay 2 factorZeroOptions 0 < factorZeroOptions.minTimeout := by
  constructor <;> norm_num [calculateDelay, factorZeroOptions, mergeOptions, jround,
    ENum.minQ]

/-- C4 amended: a zero `factor` honours `minTimeout` only on attempt 1;
for every attempt `k ≥ 2` the computed delay is `min(0, maxTimeout)` —
`0` for any non-negative `maxTimeout` — whatever the random sample and
the `randomize` flag: the delay collapses to zero instead of degrading
to a constant `minTimeout`. -/
theorem calculateDelay_factor_zero_collapses (k : ℕ) (mo : MergedOptions) (r : ℚ)
    (hf : mo.factor = 0) (hk : 2 ≤ k) :
    calculateDelay k mo r = ENum.minQ 0 mo.maxTimeout := by
  have hpow : mo.factor ^ (k - 1) = 0 := by
    rw [hf]; exact zero_pow (by omega)
  have hzero : jround 0 = 0 := by
    rw [jround, zero_add]
    rw [Int.floor_eq_zero_iff]
    constructor <;> norm_num
  simp [calculateDelay, hpow, hzero]

/-- Witness for the amended C4 at `k = 2` with a finite non-negative
`maxTimeout`. -/
theorem calculateDelay_factor_zero_collapses_witness :
    calculateDelay 2 factorZeroOptions 7 = ENum.minQ 0 factorZeroOptions.maxTimeout :=
  calculateDelay_factor_zero_collapses 2 factorZeroOptions 7 rfl (by omega)

/-- Evaluation rule for `jround` by the floor characterisation. -/
lemma jround_eq (x : ℚ) (z : ℤ) (h1 : (z : ℚ) ≤ x + 1/2) (h2 : x + 1/2 < z + 1) :
    jround x = z := by
  rw [jround]
  exact Int.floor_eq_iff.mpr ⟨h1, h2⟩

/-- One loop iteration in which attempt `a + 1` fails retriably, every
decision allows a retry, and the signal fires while the engine sleeps in
the (positive) delay: the abort listener rejects the delay promise with
the signal's reason, which propagates out of the loop. -/
lemma pRetryLoop_delayAbort {T : Type} (mo : MergedOptions) (b : Behavior T)
    (s : SignalModel) (a c fuel : ℕ) (e : JSVal)
    (hnota : s.alreadyAborted = false)
    (hfires : s.firesDuringDelayAfter (a + 1) = true)
    (hguard : JNum.ltQr (a : ℚ) (mo.retries.addQ 1) = true)
    (hop : b.op (a + 1) = Except.error e)
    (hfatal : isFatalThrow e = false)
    (hhook : b.onFailedAttempt (createRetryContext (wrapError e) (a + 1) mo.retries) = none)
    (hMT : mo.maxRetryTime = ENum.inf)
    (hbudget : JNum.geQr ((a + 1 : ℕ) : ℚ) (mo.retries.addQ 1) = false)
    (hsr : b.shouldRetry (createRetryContext (wrapError e) (a + 1) mo.retries)
      = Except.ok true)
    (hdelay : 0 < calculateDelay (a + 1) mo (b.rand (a + 1))) :
    pRetryLoop mo b (some s) (fuel + 1) a c = ⟨RunResult.err s.reason, c + 1⟩ := by
  have htry : tryAttempt b (some s) (a + 1) = (Except.error e, true) := by
    simp [tryAttempt, sigAborted, hnota, hop]
  simp only [pRetryLoop, hguard, if_true, htry, hfatal, Bool.false_eq_true, if_false,
    hhook, hMT, elapsedExceeds, hbudget, Bool.or_self, Bool.false_or, Bool.or_false,
    hsr, hdelay, delayRace, sigFires, hfires, sigReasonD, if_true]

/-- C6, behaviour of the code at the failing input: when the signal fires
while the engine sleeps in the delay after attempt 1, the abort listener
clears the pending timer, but the run rejects with the signal's reason
itself — `Error('Database unavailable')`, which is not an abort error of
any kind — rather than with an abort error whose `cause` is the reason. -/
theorem pRetry_midDelay_abort_rejects_raw_reason :
    pRetry {} behaviorBoom (some abortMidDelaySignal) 11
        = ⟨RunResult.err (JSVal.genericError "Error" "Database unavailable"), 1⟩
    ∧ (delayRace true abortMidDelaySignal.reason).timerCleared = true
    ∧ JSVal.isAbortError (JSVal.genericError "Error" "Database unavailable") = false := by
  refine ⟨?_, rfl, rfl⟩
  rw [pRetry_run ({} : Options) behaviorBoom (some abortMidDelaySignal) 11 rfl rfl,
    show (11 : ℕ) = 10 + 1 from rfl]
  have hdelay : (0 : ℚ) < calculateDelay (0 + 1) (mergeOptions {}) (behaviorBoom.rand (0 + 1)) := by
    have hj : jround (1000 : ℚ) = 1000 := by
      apply jround_eq
      · norm_num
      · norm_num
    simp only [calculateDelay, mergeOptions, behaviorBoom, Option.getD, ENum.minQ]
    norm_num [hj]
  exact pRetryLoop_delayAbort (mergeOptions {}) behaviorBoom abortMidDelaySignal 0 0 10
    (errsBoom 1) rfl rfl (by norm_num [mergeOptions, JNum.addQ, JNum.ltQr]) rfl rfl rfl
    rfl (by norm_num [mergeOptions, JNum.addQ, JNum.geQr]) rfl hdelay

/-- C8: a negative `retries` value makes `pRetry` fail with the
configuration `TypeError` before any attempt: the operation is never
invoked, whatever the behaviour, the signal and the fuel. -/
theorem pRetry_negative_retries_config_error {T : Type} (q : ℚ) (hq : q < 0)
    (b : Behavior T) (sig : Option SignalModel) (fuel : ℕ) :
    pRetry { retries := some (JNum.fin q) } b sig fuel
      = ⟨RunResult.err (JSVal.typeError "Expected `retries` to be a non-negative number."),
          0⟩ := by
  simp [pRetry, mergeOptions, JNum.isNegative, hq]

/-- Witness for C8 at `retries = -1`. -/
theorem pRetry_negative_retries_config_error_witness :
    pRetry { retries := some (JNum.fin (-1)) } behaviorBoom none 0
      = ⟨RunResult.err (JSVal.typeError "Expected `retries` to be a non-negative number."),
          0⟩ :=
  pRetry_negative_retries_config_error (-1) (by norm_num) behaviorBoom none 0

/-- C9: a thrown non-`Error` value is wrapped in a `TypeError` whose
message identifies the non-error, yet the fatal-throw test is applied to
the original thrown value, so the failure is retriable: under default
options it reaches `onFailedAttempt` (a throwing hook's error becomes the
result) and `shouldRetry` (a `false` answer rejects with the wrapper)
with the wrapper in the context — exactly like an ordinary retriable
error. -/
theorem pRetry_nonError_wrapped_and_retriable {T : Type} (s : String)
    (b : Behavior T) (hookErr : JSVal) (f : ℕ)
    (hop : b.op 1 = Except.error (JSVal.nonError s)) :
    wrapError (JSVal.nonError s)
        = JSVal.typeError
            ("Non-error was thrown: \"" ++ s ++ "\". You should only throw errors.")
    ∧ isFatalThrow (JSVal.nonError s) = false
    ∧ (b.onFailedAttempt (attemptCtx (JNum.fin 10) (fun _ => JSVal.nonError s) 1)
          = some hookErr →
        pRetry {} b none (f + 1) = ⟨RunResult.err hookErr, 1⟩)
    ∧ (b.onFailedAttempt (attemptCtx (JNum.fin 10) (fun _ => JSVal.nonError s) 1) = none →
       b.shouldRetry (attemptCtx (JNum.fin 10) (fun _ => JSVal.nonError s) 1)
          = Except.ok false →
        pRetry {} b none (f + 1)
          = ⟨RunResult.err (wrapError (JSVal.nonError s)), 1⟩) := by
  have hguard : JNum.ltQr ((0 : ℕ) : ℚ) (((mergeOptions {}).retries).addQ 1) = true := by
    norm_num [mergeOptions, JNum.addQ, JNum.ltQr]
  refine ⟨rfl, rfl, ?_, ?_⟩
  · intro hhook
    rw [pRetry_run ({} : Options) b none (f + 1) rfl rfl]
    have := pRetryLoop_hookThrows (mergeOptions {}) b 0 0 f (JSVal.nonError s) hookErr
      hguard hop (by rfl) hhook
    simpa using this
  · intro hhook hsr
    rw [pRetry_run ({} : Options) b none (f + 1) rfl rfl]
    have hbudget : JNum.geQr (((0 + 1 : ℕ)) : ℚ) (((mergeOptions {}).retries).addQ 1)
        = false := by
      norm_num [mergeOptions, JNum.addQ, JNum.geQr]
    have := pRetryLoop_shouldRetryFalse (mergeOptions {}) b 0 0 f (JSVal.nonError s)
      hguard hop (by rfl) hhook (by rfl) hbudget hsr
    simpa using this

theorem pRetry_nonError_wrapped_and_retriable_witness :
    wrapError (JSVal.nonError "foo")
        = JSVal.typeError "Non-error was thrown: \"foo\". You should only throw errors."
    ∧ isFatalThrow (JSVal.nonError "foo") = false
    ∧ (behaviorNonError.onFailedAttempt
          (attemptCtx (JNum.fin 10) (fun _ => JSVal.nonError "foo") 1)
          = some (JSVal.genericError "Error" "hook saw it") →
        pRetry {} behaviorNonError none 1
          = ⟨RunResult.err (JSVal.genericError "Error" "hook saw it"), 1⟩)
    ∧ (behaviorNonError.onFailedAttempt
          (attemptCtx (JNum.fin 10) (fun _ => JSVal.nonError "foo") 1) = none →
       behaviorNonError.shouldRetry
          (attemptCtx (JNum.fin 10) (fun _ => JSVal.nonError "foo") 1) = Except.ok false →
        pRetry {} behaviorNonError none 1
          = ⟨RunResult.err (wrapError (JSVal.nonError "foo")), 1⟩) :=
  pRetry_nonError_wrapped_and_retriable "foo" behaviorNonError
    (JSVal.genericError "Error" "hook saw it") 0 rfl

/-- C10: `retries = NaN` passes the negative-retries validation
(`NaN < 0` is false), the loop guard `attemptNumber < retries + 1` is
false at its first check (comparisons with `NaN` are false), the
operation is never invoked, and the run rejects with the internal
invariant error. -/
theorem pRetry_nan_retries_never_attempts {T : Type} (b : Behavior T) (f : ℕ) :
    pRetry { retries := some JNum.nan } b none (f + 1)
      = ⟨RunResult.err (JSVal.genericError "Error"
          "Retry attempts exhausted without throwing an error."), 0⟩ := by
  rw [pRetry_run ({ retries := some JNum.nan } : Options) b none (f + 1) rfl rfl]
  simp [pRetryLoop, mergeOptions, JNum.addQ, JNum.ltQr, exhaustedMessage]

end Retry
